import Mathlib

/-!
Shallow embedding of the Terragrunt configuration-resolution engine
(`config/config.go`): data model, format detection, decoding, the
single-level include-resolution pipeline and the field-by-field merge
algorithm, together with theorems settling the specification claims.

External collaborators (the interpolation resolver, the HCL decoder,
the remote-state default-filling/validation, and the file system
primitives from the `util` package) are modelled as explicit function
parameters collected in an `Externals` record, so every theorem about
the pipeline quantifies over their behaviour. Logging is omitted: the
specification treats it as a non-fatal side channel.
-/

namespace Terragrunt

/-- Go constant `DefaultTerragruntConfigPath`: the modern default file name. -/
def DefaultTerragruntConfigPath : String := "terraform.tfvars"

/-- Go constant `OldTerragruntConfigPath`: the legacy file name. -/
def OldTerragruntConfigPath : String := ".terragrunt"

/-- Go struct `TerraformExtraArguments`: a named bundle of arguments,
variable-file lists and the commands it applies to. -/
structure TerraformExtraArguments where
  name : String
  arguments : List String
  requiredVarFiles : List String
  optionalVarFiles : List String
  commands : List String
deriving DecidableEq, Repr

/-- Go struct `TerraformConfig`: where to find the Terraform configuration
and the list of extra-argument groups. -/
structure TerraformConfig where
  extraArgs : List TerraformExtraArguments
  source : String
deriving DecidableEq, Repr

/-- Go type `remote.RemoteState` from the `remote` package. The resolution
engine treats it as an opaque pass-through value, so it is modelled as a
wrapper around an uninterpreted string. -/
structure RemoteState where
  raw : String
deriving DecidableEq, Repr

/-- Go struct `ModuleDependencies`: paths of modules that must be applied
before the current one. -/
structure ModuleDependencies where
  paths : List String
deriving DecidableEq, Repr

/-- Go struct `IncludeConfig`: the include reference of a child file. -/
structure IncludeConfig where
  path : String
deriving DecidableEq, Repr

/-- Go type `LockConfig` (a deprecated map kept only so its presence can be
warned about); its contents are never inspected, modelled as an association
list. -/
structure LockConfig where
  entries : List (String × String)
deriving DecidableEq, Repr

/-- Go struct `TerragruntConfig`: the final, merge-complete configuration. -/
structure TerragruntConfig where
  terraform : Option TerraformConfig
  remoteState : Option RemoteState
  dependencies : Option ModuleDependencies
deriving DecidableEq, Repr

/-- Go struct `terragruntConfigFile`: the decoded, not-yet-merged
representation of one file. The Go field `Include` is called `includeRef`
here because `include` is a Lean keyword. -/
structure TerragruntConfigFile where
  terraform : Option TerraformConfig
  includeRef : Option IncludeConfig
  lock : Option LockConfig
  remoteState : Option RemoteState
  dependencies : Option ModuleDependencies
deriving DecidableEq, Repr

/-- Go struct `tfvarsFileWithTerragruntConfig`: a tfvars file wrapper holding
an optional `terragrunt = ...` block. -/
structure TfvarsFileWithTerragruntConfig where
  terragrunt : Option TerragruntConfigFile
deriving DecidableEq, Repr

/-- The error taxonomy of the engine. The named configuration errors mirror
the Go error types (`IncludedConfigMissingPath`, `TooManyLevelsOfInheritance`,
`CouldNotResolveTerragruntConfigInFile`); `readFailure`, `decodeFailure` and
`remoteStateValidationFailure` stand for errors surfaced by external
collaborators; `outOfFuel` is an artifact of the embedding's explicit
recursion bound and is unreachable from a top-level parse (the include-depth
check stops recursion after one level). -/
inductive ConfigError where
  | readFailure (path : String)
  | decodeFailure (msg : String)
  | resolveFailure (msg : String)
  | couldNotResolveTerragruntConfigInFile (path : String)
  | includedConfigMissingPath (path : String)
  | tooManyLevelsOfInheritance (configPath firstLevelIncludePath secondLevelIncludePath : String)
  | remoteStateValidationFailure (msg : String)
  | outOfFuel
deriving DecidableEq, Repr

/-- Go struct `options.TerragruntOptions`, restricted to the field the
resolution engine reads (`TerragruntConfigPath`); the logger is omitted. -/
structure TerragruntOptions where
  terragruntConfigPath : String
deriving DecidableEq, Repr

/-- The external collaborators of the engine, modelled as explicit functions:
interpolation (`ResolveTerragruntConfigString`), the two HCL decode shapes
(`hcl.Decode` into `terragruntConfigFile` and into
`tfvarsFileWithTerragruntConfig`), remote-state default filling and
validation (`FillDefaults`/`Validate`), and the `util`/`filepath` file-system
primitives (`FileExists`, `ReadFileAsString`, `JoinPath`, `IsAbs`, `Dir`). -/
structure Externals where
  resolveTerragruntConfigString :
    String → Option IncludeConfig → TerragruntOptions → Except ConfigError String
  hclDecodeTerragruntConfigFile : String → Except ConfigError TerragruntConfigFile
  hclDecodeTfvars : String → Except ConfigError TfvarsFileWithTerragruntConfig
  fillDefaults : RemoteState → RemoteState
  validate : RemoteState → Except ConfigError Unit
  fileExists : String → Bool
  readFileAsString : String → Except ConfigError String
  joinPath : String → String → String
  isAbs : String → Bool
  dirName : String → String

/-- Go function `isOldTerragruntConfig`: `strings.HasSuffix(path,
OldTerragruntConfigPath)` — a suffix check on the whole path. -/
def isOldTerragruntConfig (path : String) : Bool :=
  OldTerragruntConfigPath.data.isSuffixOf path.data

/-- Go function `DefaultConfigPath`: the legacy file in the working directory
when it exists, otherwise the modern default file. -/
def DefaultConfigPath (ext : Externals) (workingDir : String) : String :=
  let path := ext.joinPath workingDir OldTerragruntConfigPath
  if ext.fileExists path then path
  else ext.joinPath workingDir DefaultTerragruntConfigPath

/-- Go function `containsTerragruntBlock`: whether the string decodes as a
tfvars file holding a `terragrunt` block. -/
def containsTerragruntBlock (ext : Externals) (configString : String) : Bool :=
  match ext.hclDecodeTfvars configString with
  | Except.error _ => false
  | Except.ok tfvarsConfig => tfvarsConfig.terragrunt.isSome

/-- Go function `isNewTerragruntConfig`: read the file and test for a
`terragrunt` block. -/
def isNewTerragruntConfig (ext : Externals) (path : String) : Except ConfigError Bool :=
  match ext.readFileAsString path with
  | Except.error e => Except.error e
  | Except.ok configContents => Except.ok (containsTerragruntBlock ext configContents)

/-- Go function `IsTerragruntConfigFile`: a nonexistent file is not a config
file (without error); a legacy-named file is one; otherwise the contents
decide. -/
def IsTerragruntConfigFile (ext : Externals) (path : String) : Except ConfigError Bool :=
  if ext.fileExists path = false then Except.ok false
  else if isOldTerragruntConfig path then Except.ok true
  else isNewTerragruntConfig ext path

/-- Helper for `mergeExtraArgs` modelling the inner loop of Go
`mergeExtraArgs`: scan `result` for the first entry whose `Name` equals the
child's and overwrite it in place, returning `none` when no entry matches. -/
def replaceFirstByName :
    List TerraformExtraArguments → TerraformExtraArguments →
    Option (List TerraformExtraArguments)
  | [], _ => none
  | parent :: rest, child =>
    if parent.name = child.name then some (child :: rest)
    else
      match replaceFirstByName rest child with
      | some rest2 => some (parent :: rest2)
      | none => none

/-- Go function `mergeExtraArgs` (logger dropped): fold the child groups over
the parent list, overwriting the first name match in place or appending at
the end. The Go version mutates the parent slice through a pointer; here the
merged list is returned. -/
def mergeExtraArgs (childExtraArgs parentExtraArgs : List TerraformExtraArguments) :
    List TerraformExtraArguments :=
  childExtraArgs.foldl
    (fun result child =>
      match replaceFirstByName result child with
      | some result2 => result2
      | none => result ++ [child])
    parentExtraArgs

/-- Go function `mergeConfigWithIncludedConfig` (its error result is always
nil, so the model returns the configuration directly): child fields override
the included (parent) configuration; `Source` only when non-empty; extra
arguments via `mergeExtraArgs`. -/
def mergeConfigWithIncludedConfig (config : TerragruntConfig)
    (includedConfig : Option TerragruntConfig) : TerragruntConfig :=
  match includedConfig with
  | none => config
  | some included =>
    let included :=
      match config.remoteState with
      | some rs => { included with remoteState := some rs }
      | none => included
    let included :=
      match config.terraform with
      | none => included
      | some childTf =>
        match included.terraform with
        | none => { included with terraform := some childTf }
        | some parentTf =>
          { included with
            terraform := some
              { source := if childTf.source = "" then parentTf.source else childTf.source
                extraArgs := mergeExtraArgs childTf.extraArgs parentTf.extraArgs } }
    match config.dependencies with
    | some deps => { included with dependencies := some deps }
    | none => included

/-- Go function `convertToTerragruntConfig` (lock-deprecation logging
dropped): fill defaults and validate the remote state when present, then
carry the terraform and dependency fields over unchanged. -/
def convertToTerragruntConfig (ext : Externals) (terragruntConfigFromFile : TerragruntConfigFile)
    (_opts : TerragruntOptions) : Except ConfigError TerragruntConfig :=
  match terragruntConfigFromFile.remoteState with
  | some remoteState =>
    let remoteState := ext.fillDefaults remoteState
    match ext.validate remoteState with
    | Except.error e => Except.error e
    | Except.ok _ =>
      Except.ok
        { terraform := terragruntConfigFromFile.terraform
          remoteState := some remoteState
          dependencies := terragruntConfigFromFile.dependencies }
  | none =>
    Except.ok
      { terraform := terragruntConfigFromFile.terraform
        remoteState := none
        dependencies := terragruntConfigFromFile.dependencies }

/-- Go function `parseConfigStringAsTerragruntConfigFile`: the legacy format
decodes the whole file into the config shape; the modern format decodes a
wrapper and projects out its optional `terragrunt` block (which may be
absent, giving `none` without an error). -/
def parseConfigStringAsTerragruntConfigFile (ext : Externals)
    (configString configPath : String) : Except ConfigError (Option TerragruntConfigFile) :=
  if isOldTerragruntConfig configPath then
    match ext.hclDecodeTerragruntConfigFile configString with
    | Except.error e => Except.error e
    | Except.ok terragruntConfig => Except.ok (some terragruntConfig)
  else
    match ext.hclDecodeTfvars configString with
    | Except.error e => Except.error e
    | Except.ok tfvarsConfig => Except.ok tfvarsConfig.terragrunt

mutual

/-- Go function `ParseConfigFile` (deprecation logging dropped): read the
file and parse its contents. The `fuel` argument makes the recursion bound
explicit; in Go the recursion is bounded because an included parse always
carries a non-nil include context, which forbids further includes. -/
def ParseConfigFile (ext : Externals) (fuel : Nat) (configPath : String)
    (opts : TerragruntOptions) (includeCtx : Option IncludeConfig) :
    Except ConfigError TerragruntConfig :=
  match ext.readFileAsString configPath with
  | Except.error e => Except.error e
  | Except.ok configString =>
    parseConfigString ext fuel configString opts includeCtx configPath

/-- Go function `parseConfigString` (the `include` parameter is called
`includeCtx` because `include` is a Lean keyword): interpolate, decode,
fail when no `terragrunt` block was found, convert to the final shape,
reject a second level of inheritance, resolve the include and merge. -/
def parseConfigString (ext : Externals) (fuel : Nat) (configString : String)
    (opts : TerragruntOptions) (includeCtx : Option IncludeConfig) (configPath : String) :
    Except ConfigError TerragruntConfig :=
  match ext.resolveTerragruntConfigString configString includeCtx opts with
  | Except.error e => Except.error e
  | Except.ok resolvedConfigString =>
    match parseConfigStringAsTerragruntConfigFile ext resolvedConfigString configPath with
    | Except.error e => Except.error e
    | Except.ok none =>
      Except.error (ConfigError.couldNotResolveTerragruntConfigInFile configPath)
    | Except.ok (some terragruntConfigFile) =>
      match convertToTerragruntConfig ext terragruntConfigFile opts with
      | Except.error e => Except.error e
      | Except.ok config =>
        match includeCtx, terragruntConfigFile.includeRef with
        | some inc, some inc2 =>
          Except.error
            (ConfigError.tooManyLevelsOfInheritance
              opts.terragruntConfigPath inc.path inc2.path)
        | _, _ =>
          match parseIncludedConfig ext fuel terragruntConfigFile.includeRef opts with
          | Except.error e => Except.error e
          | Except.ok includedConfig =>
            Except.ok (mergeConfigWithIncludedConfig config includedConfig)

/-- Go function `parseIncludedConfig`: no include gives no parent; an empty
include path is an error raised before interpolation or any file access;
otherwise interpolate the path, make it absolute relative to the including
file's directory, and parse the parent with the include as context. -/
def parseIncludedConfig (ext : Externals) (fuel : Nat)
    (includedConfig : Option IncludeConfig) (opts : TerragruntOptions) :
    Except ConfigError (Option TerragruntConfig) :=
  match includedConfig with
  | none => Except.ok none
  | some inc =>
    if inc.path = "" then
      Except.error (ConfigError.includedConfigMissingPath opts.terragruntConfigPath)
    else
      match ext.resolveTerragruntConfigString inc.path none opts with
      | Except.error e => Except.error e
      | Except.ok resolvedIncludePath =>
        let resolvedIncludePath :=
          if ext.isAbs resolvedIncludePath then resolvedIncludePath
          else ext.joinPath (ext.dirName opts.terragruntConfigPath) resolvedIncludePath
        match fuel with
        | 0 => Except.error ConfigError.outOfFuel
        | Nat.succ fuel =>
          match ParseConfigFile ext fuel resolvedIncludePath opts (some inc) with
          | Except.error e => Except.error e
          | Except.ok parentConfig => Except.ok (some parentConfig)

end

/-- Specification-side form of the keyed-list merge, written from the
specification's words: every parent entry is replaced in place by the
same-named child group when one exists, and the child groups whose names
occur nowhere in the parent list are appended at the end in child
declaration order. -/
def mergeExtraArgsSpec (childExtraArgs parentExtraArgs : List TerraformExtraArguments) :
    List TerraformExtraArguments :=
  parentExtraArgs.map
    (fun parent =>
      match childExtraArgs.find? (fun child => child.name == parent.name) with
      | some child => child
      | none => parent)
  ++ childExtraArgs.filter
    (fun child => !(parentExtraArgs.any (fun parent => parent.name == child.name)))

/-- Specification-side notion of a path's name (its final component after
the last separator), used only to state the claim that legacy detection
matches the file name exactly; the code under scrutiny never computes it. -/
def baseName (path : String) : String :=
  ⟨(path.data.reverse.takeWhile (fun c => c != '/')).reverse⟩

/-- Specification-side legacy-format classifier: the path's name matches the
fixed legacy filename exactly. -/
def isLegacyFormatSpec (path : String) : Bool :=
  baseName path == OldTerragruntConfigPath

/-- A baseline instantiation of the external collaborators, used by the
concrete witnesses: interpolation is the identity, no file exists, and the
tfvars decoder finds no `terragrunt` block. -/
def extBase : Externals where
  resolveTerragruntConfigString := fun s _ _ => Except.ok s
  hclDecodeTerragruntConfigFile := fun _ => Except.error (ConfigError.decodeFailure "legacy")
  hclDecodeTfvars := fun _ => Except.ok ⟨none⟩
  fillDefaults := fun rs => rs
  validate := fun _ => Except.ok ()
  fileExists := fun _ => false
  readFileAsString := fun _ => Except.error (ConfigError.readFailure "missing")
  joinPath := fun dir file => dir ++ "/" ++ file
  isAbs := fun p => p.startsWith "/"
  dirName := fun _ => "."

/-- A decoded file that declares a second-level include and a remote state. -/
def tcfTwoLevel : TerragruntConfigFile where
  terraform := none
  includeRef := some ⟨"p2"⟩
  lock := none
  remoteState := some ⟨"rs"⟩
  dependencies := none

/-- Externals whose tfvars decoder yields `tcfTwoLevel` and whose
remote-state validator always fails: used to observe that conversion runs
before the inheritance-depth check. -/
def extTwoLevelBadRemote : Externals :=
  { extBase with
    hclDecodeTfvars := fun _ => Except.ok ⟨some tcfTwoLevel⟩
    validate := fun _ => Except.error (ConfigError.remoteStateValidationFailure "bad") }

/-- Externals whose tfvars decoder yields `tcfTwoLevel` and whose
remote-state validator succeeds. -/
def extTwoLevelGoodRemote : Externals :=
  { extBase with hclDecodeTfvars := fun _ => Except.ok ⟨some tcfTwoLevel⟩ }

/-- Externals for which every file exists. -/
def extAllFiles : Externals :=
  { extBase with fileExists := fun _ => true }

/-- C4: merging a child configuration with a nil included (parent)
configuration returns the child configuration unchanged:
`mergeConfigWithIncludedConfig config none = config`. -/
theorem claim_C4_merge_with_nil_is_identity (config : TerragruntConfig) :
    mergeConfigWithIncludedConfig config none = config := rfl

/-- C2: when both the child and the included (parent) configuration declare
Terraform settings, the merged `Source` is the parent's when the child's
`Source` is the empty string and the child's otherwise, so an empty child
`Source` never clears the parent's value. -/
theorem claim_C2_merged_source_respects_empty_child (config included : TerragruntConfig)
    (childTf parentTf : TerraformConfig)
    (hc : config.terraform = some childTf) (hp : included.terraform = some parentTf) :
    ∃ mergedTf,
      (mergeConfigWithIncludedConfig config (some included)).terraform = some mergedTf ∧
      mergedTf.source =
        (if childTf.source = "" then parentTf.source else childTf.source) := by
  cases hrs : config.remoteState <;> cases hd : config.dependencies <;>
    simp [mergeConfigWithIncludedConfig, hc, hp, hrs, hd]

/-- Witness for C2: a child with empty source keeps the parent's source. -/
theorem claim_C2_witness :
    ∃ mergedTf,
      (mergeConfigWithIncludedConfig ⟨some ⟨[], ""⟩, none, none⟩
        (some ⟨some ⟨[], "git::x"⟩, none, none⟩)).terraform = some mergedTf ∧
      mergedTf.source = (if ("" : String) = "" then "git::x" else "") :=
  claim_C2_merged_source_respects_empty_child
    ⟨some ⟨[], ""⟩, none, none⟩ ⟨some ⟨[], "git::x"⟩, none, none⟩
    ⟨[], ""⟩ ⟨[], "git::x"⟩ rfl rfl

/-- C5: a non-nil include reference with an empty path makes include
resolution fail with the missing-include-path error naming the including
configuration's path, for every behaviour of the external collaborators —
so the failure happens before interpolation of the path or any file access
is attempted. -/
theorem claim_C5_empty_include_path_fails_first (ext : Externals) (fuel : Nat)
    (inc : IncludeConfig) (opts : TerragruntOptions) (h : inc.path = "") :
    parseIncludedConfig ext fuel (some inc) opts =
      Except.error (ConfigError.includedConfigMissingPath opts.terragruntConfigPath) := by
  simp [parseIncludedConfig, h]

/-- Witness for C5 at a concrete include with empty path. -/
theorem claim_C5_witness :
    parseIncludedConfig extBase 0 (some ⟨""⟩) ⟨"child"⟩ =
      Except.error (ConfigError.includedConfigMissingPath "child") :=
  claim_C5_empty_include_path_fails_first extBase 0 ⟨""⟩ ⟨"child"⟩ rfl

/-- C8: a modern-format file whose contents decode successfully but hold no
`terragrunt` block makes the decoder return `none` without an error, and the
pipeline then fails with the configuration-block-not-found error naming the
source path. -/
theorem claim_C8_missing_block_is_dedicated_error (ext : Externals) (fuel : Nat)
    (configString : String) (opts : TerragruntOptions) (includeCtx : Option IncludeConfig)
    (configPath resolved : String)
    (hold : isOldTerragruntConfig configPath = false)
    (hres : ext.resolveTerragruntConfigString configString includeCtx opts = Except.ok resolved)
    (hdec : ext.hclDecodeTfvars resolved = Except.ok ⟨none⟩) :
    parseConfigStringAsTerragruntConfigFile ext resolved configPath = Except.ok none ∧
    parseConfigString ext fuel configString opts includeCtx configPath =
      Except.error (ConfigError.couldNotResolveTerragruntConfigInFile configPath) := by
  have h1 : parseConfigStringAsTerragruntConfigFile ext resolved configPath =
      Except.ok none := by
    simp [parseConfigStringAsTerragruntConfigFile, hold, hdec]
  exact ⟨h1, by simp [parseConfigString, hres, h1]⟩

/-- Witness for C8 at a concrete modern-format path with no block. -/
theorem claim_C8_witness :
    parseConfigStringAsTerragruntConfigFile extBase "x" "terraform.tfvars" =
      Except.ok none ∧
    parseConfigString extBase 0 "x" ⟨"c"⟩ none "terraform.tfvars" =
      Except.error (ConfigError.couldNotResolveTerragruntConfigInFile "terraform.tfvars") :=
  claim_C8_missing_block_is_dedicated_error extBase 0 "x" ⟨"c"⟩ none "terraform.tfvars" "x"
    (by decide) rfl rfl

/-- C9: the default configuration path is the working directory joined with
the legacy filename when that file exists (so the legacy file takes
precedence whenever present), and the directory joined with the modern
default filename otherwise. -/
theorem claim_C9_default_path_legacy_precedence (ext : Externals) (workingDir : String) :
    (ext.fileExists (ext.joinPath workingDir OldTerragruntConfigPath) = true →
      DefaultConfigPath ext workingDir = ext.joinPath workingDir OldTerragruntConfigPath) ∧
    (ext.fileExists (ext.joinPath workingDir OldTerragruntConfigPath) = false →
      DefaultConfigPath ext workingDir = ext.joinPath workingDir DefaultTerragruntConfigPath) := by
  constructor <;> intro h <;> simp [DefaultConfigPath, h]

/-- Witness for C9: with every file present the legacy path wins; with no
file present the modern default is used. -/
theorem claim_C9_witness :
    DefaultConfigPath extAllFiles "work" = "work/.terragrunt" ∧
    DefaultConfigPath extBase "work" = "work/terraform.tfvars" :=
  ⟨(claim_C9_default_path_legacy_precedence extAllFiles "work").1 rfl,
   (claim_C9_default_path_legacy_precedence extBase "work").2 rfl⟩

/-- C10: a path at which no file exists is classified as not a Terragrunt
configuration file without raising an error. -/
theorem claim_C10_nonexistent_file_is_ok_false (ext : Externals) (path : String)
    (h : ext.fileExists path = false) :
    IsTerragruntConfigFile ext path = Except.ok false := by
  simp [IsTerragruntConfigFile, h]

/-- Witness for C10 at a concrete nonexistent path. -/
theorem claim_C10_witness :
    IsTerragruntConfigFile extBase "missing/terraform.tfvars" = Except.ok false :=
  claim_C10_nonexistent_file_is_ok_false extBase "missing/terraform.tfvars" rfl

/-- Counterexample to C6 as stated: the path `dir/my.terragrunt` is
classified as legacy although its name, `my.terragrunt`, does not match the
legacy filename exactly — detection is a suffix check on the whole path, not
an exact match on the name. -/
theorem claim_C6_counterexample :
    isOldTerragruntConfig "dir/my.terragrunt" = true ∧
    isLegacyFormatSpec "dir/my.terragrunt" = false := by
  decide

/-- C6 as amended: the detector classifies a path as legacy exactly when the
path ends with the legacy filename as a suffix (no content inspection). -/
theorem claim_C6_legacy_detection_is_suffix_match (path : String) :
    isOldTerragruntConfig path = true ↔
      ∃ s, path.data = s ++ OldTerragruntConfigPath.data := by
  simp only [isOldTerragruntConfig, List.isSuffixOf_iff_suffix]
  constructor
  · rintro ⟨t, ht⟩
    exact ⟨t, ht.symm⟩
  · rintro ⟨t, ht⟩
    exact ⟨t, ht.symm⟩

/-- Counterexample to C3 as stated: with a non-nil include context and a
decoded parent that itself declares an include, a failing remote-state
validation surfaces as the validation error, not as the
too-many-levels-of-inheritance error — conversion runs before the depth
check. -/
theorem claim_C3_counterexample :
    parseConfigString extTwoLevelBadRemote 2 "child" ⟨"child-path"⟩ (some ⟨"p1"⟩) "cfg" =
      Except.error (ConfigError.remoteStateValidationFailure "bad") ∧
    parseConfigString extTwoLevelBadRemote 2 "child" ⟨"child-path"⟩ (some ⟨"p1"⟩) "cfg" ≠
      Except.error (ConfigError.tooManyLevelsOfInheritance "child-path" "p1" "p2") := by
  have h :
      parseConfigString extTwoLevelBadRemote 2 "child" ⟨"child-path"⟩ (some ⟨"p1"⟩) "cfg" =
        Except.error (ConfigError.remoteStateValidationFailure "bad") := by
    simp +decide [parseConfigString, parseConfigStringAsTerragruntConfigFile,
      isOldTerragruntConfig, convertToTerragruntConfig, extTwoLevelBadRemote, extBase,
      tcfTwoLevel]
  rw [h]
  exact ⟨rfl, by simp⟩

/-- C3 as amended: when a parse call carries a non-nil include context, the
decoded configuration declares its own include, and the conversion of the
decoded file succeeds, resolution fails with the
too-many-levels-of-inheritance error carrying the original child config
path, the first-level include path and the second-level include path — for
every behaviour of the external collaborators, so no parent file is read and
no merged configuration is returned. -/
theorem claim_C3_two_level_inheritance_fails (ext : Externals) (fuel : Nat)
    (configString : String) (opts : TerragruntOptions) (inc inc2 : IncludeConfig)
    (configPath resolved : String) (tcf : TerragruntConfigFile) (config : TerragruntConfig)
    (hres : ext.resolveTerragruntConfigString configString (some inc) opts = Except.ok resolved)
    (hdec : parseConfigStringAsTerragruntConfigFile ext resolved configPath =
      Except.ok (some tcf))
    (hinc : tcf.includeRef = some inc2)
    (hconv : convertToTerragruntConfig ext tcf opts = Except.ok config) :
    parseConfigString ext fuel configString opts (some inc) configPath =
      Except.error (ConfigError.tooManyLevelsOfInheritance
        opts.terragruntConfigPath inc.path inc2.path) := by
  simp [parseConfigString, hres, hdec, hconv, hinc]

/-- Witness for the amended C3 at a concrete two-level chain. -/
theorem claim_C3_witness :
    parseConfigString extTwoLevelGoodRemote 2 "child" ⟨"child-path"⟩ (some ⟨"p1"⟩) "cfg" =
      Except.error (ConfigError.tooManyLevelsOfInheritance "child-path" "p1" "p2") :=
  claim_C3_two_level_inheritance_fails extTwoLevelGoodRemote 2 "child" ⟨"child-path"⟩
    ⟨"p1"⟩ ⟨"p2"⟩ "cfg" "child" tcfTwoLevel ⟨none, some ⟨"rs"⟩, none⟩
    rfl rfl rfl rfl

/-- Counterexample to C7 as stated: under the claimed step order the
inheritance-depth check would fire before conversion, so this input would
yield the too-many-levels error; the code instead returns the remote-state
validation error raised by conversion. -/
theorem claim_C7_counterexample :
    parseConfigString extTwoLevelBadRemote 2 "body" ⟨"top"⟩ (some ⟨"q1"⟩) "file.tfvars" =
      Except.error (ConfigError.remoteStateValidationFailure "bad") ∧
    parseConfigString extTwoLevelBadRemote 2 "body" ⟨"top"⟩ (some ⟨"q1"⟩) "file.tfvars" ≠
      Except.error (ConfigError.tooManyLevelsOfInheritance "top" "q1" "p2") := by
  have h :
      parseConfigString extTwoLevelBadRemote 2 "body" ⟨"top"⟩ (some ⟨"q1"⟩) "file.tfvars" =
        Except.error (ConfigError.remoteStateValidationFailure "bad") := by
    simp +decide [parseConfigString, parseConfigStringAsTerragruntConfigFile,
      isOldTerragruntConfig, convertToTerragruntConfig, extTwoLevelBadRemote, extBase,
      tcfTwoLevel]
  rw [h]
  exact ⟨rfl, by simp⟩

/-- C7 as amended: the pipeline order is Decode, then the no-block check,
then ConvertToFinal (remote-state default filling and validation), then
CheckInheritanceDepth, then ResolveParent, then Merge. Three observable
facts pin this order: a conversion error surfaces even when a depth
violation is present (conversion precedes the depth check); when conversion
succeeds the depth violation surfaces for every behaviour of the file-system
collaborators (the depth check precedes parent resolution and merge); and a
missing block surfaces for every behaviour of the conversion collaborators
(the no-block check precedes conversion). -/
theorem claim_C7_pipeline_order :
    (∀ (ext : Externals) (fuel : Nat) (configString : String) (opts : TerragruntOptions)
      (inc : IncludeConfig) (configPath resolved : String) (tcf : TerragruntConfigFile)
      (e : ConfigError),
      ext.resolveTerragruntConfigString configString (some inc) opts = Except.ok resolved →
      parseConfigStringAsTerragruntConfigFile ext resolved configPath =
        Except.ok (some tcf) →
      tcf.includeRef.isSome = true →
      convertToTerragruntConfig ext tcf opts = Except.error e →
      parseConfigString ext fuel configString opts (some inc) configPath =
        Except.error e) ∧
    (∀ (ext : Externals) (fuel : Nat) (configString : String) (opts : TerragruntOptions)
      (inc inc2 : IncludeConfig) (configPath resolved : String)
      (tcf : TerragruntConfigFile) (config : TerragruntConfig),
      ext.resolveTerragruntConfigString configString (some inc) opts = Except.ok resolved →
      parseConfigStringAsTerragruntConfigFile ext resolved configPath =
        Except.ok (some tcf) →
      tcf.includeRef = some inc2 →
      convertToTerragruntConfig ext tcf opts = Except.ok config →
      parseConfigString ext fuel configString opts (some inc) configPath =
        Except.error (ConfigError.tooManyLevelsOfInheritance
          opts.terragruntConfigPath inc.path inc2.path)) ∧
    (∀ (ext : Externals) (fuel : Nat) (configString : String) (opts : TerragruntOptions)
      (includeCtx : Option IncludeConfig) (configPath resolved : String),
      ext.resolveTerragruntConfigString configString includeCtx opts = Except.ok resolved →
      parseConfigStringAsTerragruntConfigFile ext resolved configPath = Except.ok none →
      parseConfigString ext fuel configString opts includeCtx configPath =
        Except.error (ConfigError.couldNotResolveTerragruntConfigInFile configPath)) := by
  refine ⟨?_, ?_, ?_⟩
  · intro ext fuel configString opts inc configPath resolved tcf e hres hdec _hinc hconv
    simp [parseConfigString, hres, hdec, hconv]
  · intro ext fuel configString opts inc inc2 configPath resolved tcf config
      hres hdec hinc hconv
    simp [parseConfigString, hres, hdec, hconv, hinc]
  · intro ext fuel configString opts includeCtx configPath resolved hres hdec
    simp [parseConfigString, hres, hdec]

/-- Witness for the amended C7: the three ordering facts evaluated at
concrete inputs. -/
theorem claim_C7_witness :
    parseConfigString extTwoLevelBadRemote 2 "w" ⟨"wp"⟩ (some ⟨"i1"⟩) "f" =
      Except.error (ConfigError.remoteStateValidationFailure "bad") ∧
    parseConfigString extTwoLevelGoodRemote 2 "w" ⟨"wp"⟩ (some ⟨"i1"⟩) "f" =
      Except.error (ConfigError.tooManyLevelsOfInheritance "wp" "i1" "p2") ∧
    parseConfigString extBase 0 "w" ⟨"wp"⟩ none "f" =
      Except.error (ConfigError.couldNotResolveTerragruntConfigInFile "f") :=
  ⟨claim_C7_pipeline_order.1 extTwoLevelBadRemote 2 "w" ⟨"wp"⟩ ⟨"i1"⟩ "f" "w"
      tcfTwoLevel (ConfigError.remoteStateValidationFailure "bad")
      rfl rfl rfl rfl,
   claim_C7_pipeline_order.2.1 extTwoLevelGoodRemote 2 "w" ⟨"wp"⟩ ⟨"i1"⟩ ⟨"p2"⟩ "f" "w"
      tcfTwoLevel ⟨none, some ⟨"rs"⟩, none⟩ rfl rfl rfl rfl,
   claim_C7_pipeline_order.2.2 extBase 0 "w" ⟨"wp"⟩ none "f" "w" rfl rfl⟩

/-- The in-place replacement scan fails exactly when no entry of the list
carries the child's name. -/
theorem replaceFirstByName_eq_none (l : List TerraformExtraArguments)
    (c : TerraformExtraArguments) :
    replaceFirstByName l c = none ↔ ∀ p ∈ l, p.name ≠ c.name := by
  induction l with
  | nil => simp [replaceFirstByName]
  | cons p rest ih =>
    by_cases h : p.name = c.name
    · simp [replaceFirstByName, h]
    · cases hr : replaceFirstByName rest c with
      | some r2 =>
        simp only [replaceFirstByName, if_neg h, hr]
        constructor
        · intro hco
          exact absurd hco (by simp)
        · intro hall
          have hnone : replaceFirstByName rest c = none :=
            ih.mpr (fun q hq => hall q (List.mem_cons_of_mem _ hq))
          rw [hnone] at hr
          exact absurd hr (by simp)
      | none =>
        simp only [replaceFirstByName, if_neg h, hr]
        constructor
        · intro _ q hq
          rcases List.mem_cons.mp hq with rfl | hq2
          · exact h
          · exact ih.mp hr q hq2
        · intro _
          trivial

/-- The in-place replacement scan succeeds exactly by splitting the list at
the first entry carrying the child's name and overwriting that entry. -/
theorem replaceFirstByName_eq_some (c : TerraformExtraArguments) :
    ∀ l l' : List TerraformExtraArguments, replaceFirstByName l c = some l' →
    ∃ pre p post, l = pre ++ p :: post ∧ l' = pre ++ c :: post ∧ p.name = c.name ∧
      ∀ q ∈ pre, q.name ≠ c.name := by
  intro l
  induction l with
  | nil =>
    intro l' h
    simp [replaceFirstByName] at h
  | cons p rest ih =>
    intro l' h
    by_cases hpc : p.name = c.name
    · simp only [replaceFirstByName, if_pos hpc, Option.some.injEq] at h
      exact ⟨[], p, rest, by simp, by simp [← h], hpc, by simp⟩
    · cases hr : replaceFirstByName rest c with
      | none =>
        rw [replaceFirstByName, if_neg hpc, hr] at h
        exact absurd h (by simp)
      | some r2 =>
        rw [replaceFirstByName, if_neg hpc, hr] at h
        simp only [Option.some.injEq] at h
        obtain ⟨pre, q, post, h1, h2, h3, h4⟩ := ih r2 hr
        refine ⟨p :: pre, q, post, by simp [h1], by simp [← h, h2], h3, ?_⟩
        intro x hx
        rcases List.mem_cons.mp hx with rfl | hx2
        · exact hpc
        · exact h4 x hx2

/-- Replacing an entry by another entry with the same name preserves the
pairwise distinctness of the names. -/
theorem pairwise_names_replace {pre post : List TerraformExtraArguments}
    {p c : TerraformExtraArguments} (hname : p.name = c.name)
    (hp : (pre ++ p :: post).Pairwise (fun a b => a.name ≠ b.name)) :
    (pre ++ c :: post).Pairwise (fun a b => a.name ≠ b.name) := by
  rw [List.pairwise_append] at hp ⊢
  obtain ⟨h1, h2, h3⟩ := hp
  rw [List.pairwise_cons] at h2 ⊢
  obtain ⟨h21, h22⟩ := h2
  refine ⟨h1, ⟨?_, h22⟩, ?_⟩
  · intro b hb
    rw [← hname]
    exact h21 b hb
  · intro a ha b hb
    rcases List.mem_cons.mp hb with rfl | hb2
    · rw [← hname]
      exact h3 a ha p (List.mem_cons_self _ _)
    · exact h3 a ha b (List.mem_cons_of_mem _ hb2)

/-- One step of the child fold in `mergeExtraArgs`. -/
theorem mergeExtraArgs_cons (c : TerraformExtraArguments)
    (cs parent : List TerraformExtraArguments) :
    mergeExtraArgs (c :: cs) parent =
      mergeExtraArgs cs
        (match replaceFirstByName parent c with
          | some result2 => result2
          | none => parent ++ [c]) := rfl

/-- The specification-side merge of no child groups is the parent list. -/
theorem mergeExtraArgsSpec_nil (parent : List TerraformExtraArguments) :
    mergeExtraArgsSpec [] parent = parent := by
  simp [mergeExtraArgsSpec]

/-- Specification-side step when the child group's name is absent from the
parent list: the group moves to the end of the parent list. -/
theorem mergeExtraArgsSpec_cons_append (c : TerraformExtraArguments)
    (cs parent : List TerraformExtraArguments)
    (hpar : ∀ p ∈ parent, p.name ≠ c.name)
    (hcs : ∀ x ∈ cs, x.name ≠ c.name) :
    mergeExtraArgsSpec (c :: cs) parent = mergeExtraArgsSpec cs (parent ++ [c]) := by
  unfold mergeExtraArgsSpec
  have hany : parent.any (fun q => q.name == c.name) = false :=
    List.any_eq_false.mpr (fun q hq => by simp only [beq_iff_eq]; exact hpar q hq)
  have hfind : cs.find? (fun child => child.name == c.name) = none :=
    List.find?_eq_none.mpr (fun x hx => by simp only [beq_iff_eq]; exact hcs x hx)
  have hmap : parent.map
      (fun p => match (c :: cs).find? (fun child => child.name == p.name) with
        | some child => child
        | none => p) =
      parent.map
      (fun p => match cs.find? (fun child => child.name == p.name) with
        | some child => child
        | none => p) := by
    apply List.map_congr_left
    intro p hp
    rw [List.find?_cons_of_neg]
    simp only [beq_iff_eq]
    exact fun hh => hpar p hp hh.symm
  have hfiltertail : cs.filter
      (fun child => !((parent ++ [c]).any (fun q => q.name == child.name))) =
      cs.filter (fun child => !(parent.any (fun q => q.name == child.name))) := by
    apply List.filter_congr
    intro x hx
    have hfalse : (c.name == x.name) = false :=
      beq_eq_false_iff_ne.mpr (fun hh => hcs x hx hh.symm)
    simp [List.any_append, hfalse]
  rw [List.map_append, hmap, hfiltertail]
  rw [List.filter_cons_of_pos (by simp [hany])]
  simp [hfind]

/-- Specification-side step when the child group's name occurs in the parent
list: the matching parent entry is overwritten in place. -/
theorem mergeExtraArgsSpec_cons_replace (c p0 : TerraformExtraArguments)
    (cs pre post : List TerraformExtraArguments)
    (hname : p0.name = c.name)
    (hpre : ∀ q ∈ pre, q.name ≠ c.name)
    (hpost : ∀ q ∈ post, q.name ≠ c.name)
    (hcs : ∀ x ∈ cs, x.name ≠ c.name) :
    mergeExtraArgsSpec (c :: cs) (pre ++ p0 :: post) =
      mergeExtraArgsSpec cs (pre ++ c :: post) := by
  unfold mergeExtraArgsSpec
  have hfind : cs.find? (fun child => child.name == c.name) = none :=
    List.find?_eq_none.mpr (fun x hx => by simp only [beq_iff_eq]; exact hcs x hx)
  have hanyc : ((pre ++ p0 :: post).any (fun q => q.name == c.name)) = true :=
    List.any_eq_true.mpr ⟨p0, by simp, by simp [beq_iff_eq, hname]⟩
  have hmappre : ∀ l : List TerraformExtraArguments, (∀ q ∈ l, q.name ≠ c.name) →
      l.map (fun p => match (c :: cs).find? (fun child => child.name == p.name) with
        | some child => child
        | none => p) =
      l.map (fun p => match cs.find? (fun child => child.name == p.name) with
        | some child => child
        | none => p) := by
    intro l hl
    apply List.map_congr_left
    intro p hp
    rw [List.find?_cons_of_neg]
    simp only [beq_iff_eq]
    exact fun hh => hl p hp hh.symm
  have hfiltertail : cs.filter
      (fun child => !((pre ++ p0 :: post).any (fun q => q.name == child.name))) =
      cs.filter
      (fun child => !((pre ++ c :: post).any (fun q => q.name == child.name))) := by
    apply List.filter_congr
    intro x hx
    simp [List.any_append, List.any_cons, hname]
  rw [List.map_append, List.map_append, hmappre pre hpre]
  rw [List.filter_cons_of_neg (by simp [hanyc])]
  rw [hfiltertail]
  congr 1
  rw [List.map_cons, List.map_cons, hmappre post hpost]
  congr 1
  rw [List.find?_cons_of_pos _ (by simp [beq_iff_eq, hname])]
  simp [hfind]

/-- C1: under the keyed-list uniqueness the data model assumes (pairwise
distinct group names in the child list and in the parent list), the merge of
extra-argument groups equals the specification's form: every parent entry is
replaced in place by the same-named child group when one exists, preserving
parent order, and the child groups with novel names are appended after all
parent-derived entries in child declaration order. -/
theorem claim_C1_keyed_list_merge_in_place_then_append
    (childExtraArgs parentExtraArgs : List TerraformExtraArguments)
    (hc : childExtraArgs.Pairwise (fun a b => a.name ≠ b.name))
    (hp : parentExtraArgs.Pairwise (fun a b => a.name ≠ b.name)) :
    mergeExtraArgs childExtraArgs parentExtraArgs =
      mergeExtraArgsSpec childExtraArgs parentExtraArgs := by
  induction childExtraArgs generalizing parentExtraArgs with
  | nil =>
    rw [mergeExtraArgsSpec_nil]
    rfl
  | cons c cs ih =>
    rw [List.pairwise_cons] at hc
    obtain ⟨hc1, hc2⟩ := hc
    rw [mergeExtraArgs_cons]
    cases hr : replaceFirstByName parentExtraArgs c with
    | none =>
      have hpar := (replaceFirstByName_eq_none parentExtraArgs c).mp hr
      rw [mergeExtraArgsSpec_cons_append c cs parentExtraArgs hpar
        (fun x hx => (hc1 x hx).symm)]
      have hp2 : (parentExtraArgs ++ [c]).Pairwise (fun a b => a.name ≠ b.name) := by
        rw [List.pairwise_append]
        refine ⟨hp, List.pairwise_singleton _ _, ?_⟩
        intro a ha b hb
        rw [List.mem_singleton] at hb
        subst hb
        exact hpar a ha
      exact ih (parentExtraArgs ++ [c]) hc2 hp2
    | some result2 =>
      obtain ⟨pre, p0, post, hsplit, hres, hname, hpre⟩ :=
        replaceFirstByName_eq_some c parentExtraArgs result2 hr
      subst hsplit
      subst hres
      have hpost : ∀ q ∈ post, q.name ≠ c.name := by
        rw [List.pairwise_append] at hp
        obtain ⟨-, h2, -⟩ := hp
        rw [List.pairwise_cons] at h2
        intro q hq hh
        exact h2.1 q hq (by rw [hname]; exact hh.symm)
      rw [mergeExtraArgsSpec_cons_replace c p0 cs pre post hname hpre hpost
        (fun x hx => (hc1 x hx).symm)]
      exact ih (pre ++ c :: post) hc2 (pairwise_names_replace hname hp)

/-- Witness for C1 at the specification's own scenario: the child's "common"
group replaces the parent's at position 0 and "only-parent" is retained at
position 1. -/
theorem claim_C1_witness :
    ([⟨"common", [], [], [], ["apply"]⟩] :
        List TerraformExtraArguments).Pairwise (fun a b => a.name ≠ b.name) ∧
    ([⟨"common", [], [], [], ["plan"]⟩, ⟨"only-parent", [], [], [], ["apply"]⟩] :
        List TerraformExtraArguments).Pairwise (fun a b => a.name ≠ b.name) ∧
    mergeExtraArgs [⟨"common", [], [], [], ["apply"]⟩]
        [⟨"common", [], [], [], ["plan"]⟩, ⟨"only-parent", [], [], [], ["apply"]⟩] =
      mergeExtraArgsSpec [⟨"common", [], [], [], ["apply"]⟩]
        [⟨"common", [], [], [], ["plan"]⟩, ⟨"only-parent", [], [], [], ["apply"]⟩] :=
  ⟨by simp, by simp, claim_C1_keyed_list_merge_in_place_then_append
    [⟨"common", [], [], [], ["apply"]⟩]
    [⟨"common", [], [], [], ["plan"]⟩, ⟨"only-parent", [], [], [], ["apply"]⟩]
    (by simp) (by simp)⟩

end Terragrunt
